import Mathlib

/-!
Verification of the ndns query classification and forwarding engine
(`src/dns.rs`), shallowly embedded in Lean 4.

Strings: a Rust `&str` is modelled as a Lean `String` (a list of `Char`s
that stand for the Unicode scalar values of a valid UTF-8 string).
`str::ends_with` is byte-level in Rust, but on valid UTF-8 a byte-suffix
begins on a character boundary (UTF-8 is self-synchronising), so it
coincides with the character-list suffix used here.  `str::len` is the
UTF-8 byte length, modelled by `utf8Len` below; `str::chars().take(n)`
takes `n` characters, modelled by `List.take` on `String.data`.
-/

namespace Ndns

/-- Byte length of one character in UTF-8 (`char::len_utf8`). -/
def charUtf8Size (c : Char) : Nat :=
  if c.val < 0x80 then 1
  else if c.val < 0x800 then 2
  else if c.val < 0x10000 then 3
  else 4

/-- UTF-8 byte length of a character list. -/
def utf8LenL (l : List Char) : Nat := (l.map charUtf8Size).sum

/-- UTF-8 byte length of a string (Rust `str::len`). -/
def utf8Len (s : String) : Nat := utf8LenL s.data

/-- `DnsHandler::does_end` (src/dns.rs lines 31-39): `name` ends with `it`,
and the character just before the matched suffix — the last of the first
`name.len() - it.len()` characters, where `len` is the byte length — is a
literal dot. -/
def does_end (name it : String) : Bool :=
  if ¬ (it.data.isSuffixOf name.data) then false
  else if (name.data.take (utf8Len name - utf8Len it)).getLast? = some '.' then true
  else false

/-- The decision cache: `cached_allow` and `cached_block`
(src/dns.rs lines 16-17), as lists with set-like insertion. -/
structure CacheState where
  allow : List String
  block : List String
deriving DecidableEq, Repr

/-- `FxHashSet::insert`: no duplicate entries. -/
def insertS (s : List String) (n : String) : List String :=
  if s.contains n then s else n :: s

/-- `DnsHandler::is_blocked` (src/dns.rs lines 40-60): consult the blocked
cache, then the allowed cache, then scan the blocklist with `does_end`,
inserting the verdict into the matching cache set. -/
def is_blocked (bl : List String) (st : CacheState) (name : String) :
    Bool × CacheState :=
  if st.block.contains name then (true, st)
  else if st.allow.contains name then (false, st)
  else if bl.any (fun it => does_end name it) then
    (true, ⟨st.allow, insertS st.block name⟩)
  else (false, ⟨insertS st.allow name, st.block⟩)

/-- `is_blocked` instrumented with a flag recording whether the blocklist
scan was reached (identical control flow, third component true iff the
call fell through both cache lookups). -/
def is_blocked_scan (bl : List String) (st : CacheState) (name : String) :
    Bool × CacheState × Bool :=
  if st.block.contains name then (true, st, false)
  else if st.allow.contains name then (false, st, false)
  else if bl.any (fun it => does_end name it) then
    (true, ⟨st.allow, insertS st.block name⟩, true)
  else (false, ⟨insertS st.allow name, st.block⟩, true)

/-- The empty cache both sets start from (src/dns.rs lines 26-27). -/
def emptyCache : CacheState := ⟨[], []⟩

/-- The cache state after classifying a sequence of names in order,
starting from a given state. -/
def runCalls (bl : List String) (names : List String) (st : CacheState) :
    CacheState :=
  names.foldl (fun s n => (is_blocked bl s n).2) st

/-- The pure suffix-scan verdict: some blocklist entry matches per `does_end`
(the loop body of src/dns.rs lines 49-56). -/
def matches_blocklist (bl : List String) (name : String) : Bool :=
  bl.any (fun it => does_end name it)

/-- The label-boundary suffix relation as the spec describes it for a match
strictly below the whole name: the name splits into a prefix ending in a dot
followed by the blocklist suffix. -/
def boundary_match (name it : String) : Prop :=
  ∃ pre, name.data = pre ++ it.data ∧ pre.getLast? = some '.'

theorem utf8LenL_of_ascii (l : List Char) (h : ∀ c ∈ l, c.val < 128) :
    utf8LenL l = l.length := by
  induction l with
  | nil => rfl
  | cons c t ih =>
    have hc : c.val < 128 := h c (List.mem_cons_self c t)
    have ht := ih (fun x hx => h x (List.mem_cons_of_mem c hx))
    unfold utf8LenL at *
    rw [List.map_cons, List.sum_cons, ht]
    have hc1 : charUtf8Size c = 1 := by unfold charUtf8Size; rw [if_pos hc]
    rw [hc1, List.length_cons]
    omega

theorem take_boundary (name it : String) (pre : List Char)
    (h : ∀ c ∈ name.data, c.val < 128) (hd : name.data = pre ++ it.data) :
    name.data.take (utf8Len name - utf8Len it) = pre := by
  have hpre : ∀ c ∈ pre, c.val < 128 := fun c hc =>
    h c (by rw [hd]; exact List.mem_append.mpr (Or.inl hc))
  have hit : ∀ c ∈ it.data, c.val < 128 := fun c hc =>
    h c (by rw [hd]; exact List.mem_append.mpr (Or.inr hc))
  have h1 : utf8Len name = pre.length + it.data.length := by
    unfold utf8Len utf8LenL
    rw [hd, List.map_append, List.sum_append]
    rw [show (pre.map charUtf8Size).sum = utf8LenL pre from rfl,
      show (it.data.map charUtf8Size).sum = utf8LenL it.data from rfl,
      utf8LenL_of_ascii pre hpre, utf8LenL_of_ascii it.data hit]
  have h2 : utf8Len it = it.data.length := utf8LenL_of_ascii it.data hit
  rw [h1, h2, Nat.add_sub_cancel, hd, List.take_left]

/-- For ASCII names (every DNS name in the claims), `does_end` holds exactly
when the suffix occurs at a label boundary with at least one preceding
label; in particular an exact match has empty prefix and never matches. -/
theorem does_end_iff_boundary (name it : String)
    (h : ∀ c ∈ name.data, c.val < 128) :
    does_end name it = true ↔ boundary_match name it := by
  unfold does_end boundary_match
  by_cases hs : it.data.isSuffixOf name.data
  · obtain ⟨pre, hpre⟩ := List.isSuffixOf_iff_suffix.mp hs
    rw [if_neg (not_not_intro hs)]
    constructor
    · intro hd
      refine ⟨pre, hpre.symm, ?_⟩
      by_cases hl : (name.data.take (utf8Len name - utf8Len it)).getLast? = some '.'
      · rw [take_boundary name it pre h hpre.symm] at hl
        exact hl
      · rw [if_neg hl] at hd
        exact absurd hd (by simp)
    · rintro ⟨pre', hd', hl'⟩
      rw [if_pos (by rw [take_boundary name it pre' h hd']; exact hl')]
  · rw [if_pos hs]
    constructor
    · intro hd
      exact absurd hd (by simp)
    · rintro ⟨pre, hd, -⟩
      exact absurd (List.isSuffixOf_iff_suffix.mpr ⟨pre, hd.symm⟩) hs

theorem contains_insertS_self (s : List String) (n : String) :
    (insertS s n).contains n = true := by
  unfold insertS
  split
  next h => exact h
  next h => exact List.elem_iff.mpr (List.mem_cons_self n s)

theorem mem_insertS (s : List String) (n m : String) :
    m ∈ insertS s n ↔ m = n ∨ m ∈ s := by
  unfold insertS
  split
  next h =>
    constructor
    · exact Or.inr
    · rintro (rfl | hm)
      · exact List.elem_iff.mp h
      · exact hm
  next h => simp [List.mem_cons]

theorem contains_insertS_of_contains (s : List String) (n m : String)
    (h : s.contains m = true) : (insertS s n).contains m = true :=
  List.elem_iff.mpr ((mem_insertS s n m).mpr (Or.inr (List.elem_iff.mp h)))

theorem contains_eq_true_iff (s : List String) (n : String) :
    s.contains n = true ↔ n ∈ s := List.elem_iff

theorem contains_eq_false_iff (s : List String) (n : String) :
    s.contains n = false ↔ n ∉ s := by
  constructor
  · intro h hmem
    have h2 : s.contains n = true := List.elem_iff.mpr hmem
    rw [h2] at h
    exact absurd h (by simp)
  · intro h
    by_cases hc : s.contains n = true
    · exact absurd (List.elem_iff.mp hc) h
    · simpa using hc

theorem mem_insertS_self (s : List String) (n : String) : n ∈ insertS s n :=
  (mem_insertS s n n).mpr (Or.inl rfl)

/-- `is_blocked`, with the Boolean cache lookups replaced by the
propositional memberships they decide. -/
theorem is_blocked_eq (bl : List String) (st : CacheState) (name : String) :
    is_blocked bl st name =
      if name ∈ st.block then (true, st)
      else if name ∈ st.allow then (false, st)
      else if matches_blocklist bl name then
        (true, ⟨st.allow, insertS st.block name⟩)
      else (false, ⟨insertS st.allow name, st.block⟩) := by
  unfold is_blocked matches_blocklist
  by_cases hb : name ∈ st.block
  · rw [if_pos ((contains_eq_true_iff _ _).mpr hb), if_pos hb]
  · rw [if_neg (by simpa using (contains_eq_false_iff _ _).mpr hb), if_neg hb]
    by_cases ha : name ∈ st.allow
    · rw [if_pos ((contains_eq_true_iff _ _).mpr ha), if_pos ha]
    · rw [if_neg (by simpa using (contains_eq_false_iff _ _).mpr ha), if_neg ha]

/-- `is_blocked_scan`, in the same propositional form. -/
theorem is_blocked_scan_eq (bl : List String) (st : CacheState) (name : String) :
    is_blocked_scan bl st name =
      if name ∈ st.block then (true, st, false)
      else if name ∈ st.allow then (false, st, false)
      else if matches_blocklist bl name then
        (true, ⟨st.allow, insertS st.block name⟩, true)
      else (false, ⟨insertS st.allow name, st.block⟩, true) := by
  unfold is_blocked_scan matches_blocklist
  by_cases hb : name ∈ st.block
  · rw [if_pos ((contains_eq_true_iff _ _).mpr hb), if_pos hb]
  · rw [if_neg (by simpa using (contains_eq_false_iff _ _).mpr hb), if_neg hb]
    by_cases ha : name ∈ st.allow
    · rw [if_pos ((contains_eq_true_iff _ _).mpr ha), if_pos ha]
    · rw [if_neg (by simpa using (contains_eq_false_iff _ _).mpr ha), if_neg ha]

/-- C7: classifying a name twice yields the same verdict and the second call
leaves the cache unchanged and is answered from the cache without reaching
the blocklist scan; a fresh name is inserted into exactly one cache set;
both cache sets only grow across a call. -/
theorem C7_cache_idempotent (bl : List String) (st : CacheState) (name : String)
    (v1 : Bool) (st1 : CacheState) (h : is_blocked bl st name = (v1, st1)) :
    is_blocked bl st1 name = (v1, st1) ∧
    is_blocked_scan bl st1 name = (v1, st1, false) ∧
    (name ∉ st.block → name ∉ st.allow →
      (st1.block = insertS st.block name ∧ st1.allow = st.allow) ∨
      (st1.allow = insertS st.allow name ∧ st1.block = st.block)) ∧
    (∀ m ∈ st.allow, m ∈ st1.allow) ∧ (∀ m ∈ st.block, m ∈ st1.block) := by
  rw [is_blocked_eq] at h
  by_cases hb : name ∈ st.block
  · rw [if_pos hb] at h
    injection h with h1 h2
    subst h1; subst h2
    exact ⟨by rw [is_blocked_eq, if_pos hb], by rw [is_blocked_scan_eq, if_pos hb],
      fun h1 _ => absurd hb h1, fun m hm => hm, fun m hm => hm⟩
  · rw [if_neg hb] at h
    by_cases ha : name ∈ st.allow
    · rw [if_pos ha] at h
      injection h with h1 h2
      subst h1; subst h2
      exact ⟨by rw [is_blocked_eq, if_neg hb, if_pos ha],
        by rw [is_blocked_scan_eq, if_neg hb, if_pos ha],
        fun _ h2 => absurd ha h2, fun m hm => hm, fun m hm => hm⟩
    · rw [if_neg ha] at h
      by_cases hm : matches_blocklist bl name = true
      · rw [if_pos hm] at h
        injection h with h1 h2
        subst h1; subst h2
        refine ⟨?_, ?_, fun _ _ => Or.inl ⟨rfl, rfl⟩, fun m hmm => hmm,
          fun m hmm => (mem_insertS st.block name m).mpr (Or.inr hmm)⟩
        · rw [is_blocked_eq, if_pos (mem_insertS_self st.block name)]
        · rw [is_blocked_scan_eq, if_pos (mem_insertS_self st.block name)]
      · rw [if_neg hm] at h
        injection h with h1 h2
        subst h1; subst h2
        refine ⟨?_, ?_, fun _ _ => Or.inr ⟨rfl, rfl⟩,
          fun m hmm => (mem_insertS st.allow name m).mpr (Or.inr hmm),
          fun m hmm => hmm⟩
        · rw [is_blocked_eq, if_neg hb, if_pos (mem_insertS_self st.allow name)]
        · rw [is_blocked_scan_eq, if_neg hb, if_pos (mem_insertS_self st.allow name)]

/-- Witness for C7 at a concrete input: classifying "www.example.com."
against blocklist ["example.com."] a second time returns the cached blocked
verdict with the cache unchanged. -/
theorem C7_witness :
    is_blocked ["example.com."] ⟨[], ["www.example.com."]⟩ "www.example.com." =
      (true, ⟨[], ["www.example.com."]⟩) :=
  (C7_cache_idempotent ["example.com."] emptyCache "www.example.com." true
    ⟨[], ["www.example.com."]⟩ (by decide)).1

/-- One `is_blocked` call preserves disjointness of the two cache sets. -/
theorem step_disjoint (bl : List String) (st : CacheState) (name : String)
    (h : ∀ m, ¬(m ∈ st.allow ∧ m ∈ st.block)) :
    ∀ m, ¬(m ∈ (is_blocked bl st name).2.allow ∧
           m ∈ (is_blocked bl st name).2.block) := by
  intro m
  rw [is_blocked_eq]
  by_cases hb : name ∈ st.block
  · rw [if_pos hb]; exact h m
  · rw [if_neg hb]
    by_cases ha : name ∈ st.allow
    · rw [if_pos ha]; exact h m
    · rw [if_neg ha]
      by_cases hm : matches_blocklist bl name = true
      · rw [if_pos hm]
        rintro ⟨hma, hmb⟩
        rcases (mem_insertS st.block name m).mp hmb with rfl | hmb'
        · exact ha hma
        · exact h m ⟨hma, hmb'⟩
      · rw [if_neg hm]
        rintro ⟨hma, hmb⟩
        rcases (mem_insertS st.allow name m).mp hma with rfl | hma'
        · exact hb hmb
        · exact h m ⟨hma', hmb⟩

theorem runCalls_disjoint (bl names : List String) (st : CacheState)
    (h : ∀ m, ¬(m ∈ st.allow ∧ m ∈ st.block)) :
    ∀ m, ¬(m ∈ (runCalls bl names st).allow ∧
           m ∈ (runCalls bl names st).block) := by
  induction names generalizing st with
  | nil => exact h
  | cons n t ih => exact ih (is_blocked bl st n).2 (step_disjoint bl st n h)

/-- C8: in every cache state reachable by a sequence of `is_blocked` calls
from the empty cache, no name is in both the allowed set and the blocked
set. -/
theorem C8_mutual_exclusion (bl names : List String) (n : String) :
    ((runCalls bl names emptyCache).allow.contains n &&
     (runCalls bl names emptyCache).block.contains n) = false := by
  have h := runCalls_disjoint bl names emptyCache
    (by rintro m ⟨hm, -⟩; cases hm) n
  by_cases h1 : (runCalls bl names emptyCache).allow.contains n = true
  · by_cases h2 : (runCalls bl names emptyCache).block.contains n = true
    · exact absurd ⟨(contains_eq_true_iff _ _).mp h1,
        (contains_eq_true_iff _ _).mp h2⟩ h
    · rw [h1, (by simpa using h2 : (runCalls bl names emptyCache).block.contains n = false)]
      rfl
  · rw [(by simpa using h1 : (runCalls bl names emptyCache).allow.contains n = false)]
    rfl

/-- The caches record only verdicts that agree with a fresh blocklist scan. -/
def cache_faithful (bl : List String) (st : CacheState) : Prop :=
  (∀ n ∈ st.block, matches_blocklist bl n = true) ∧
  (∀ n ∈ st.allow, matches_blocklist bl n = false)

theorem is_blocked_fst_faithful (bl : List String) (st : CacheState)
    (name : String) (h : cache_faithful bl st) :
    (is_blocked bl st name).1 = matches_blocklist bl name := by
  rw [is_blocked_eq]
  by_cases hb : name ∈ st.block
  · rw [if_pos hb]; exact (h.1 name hb).symm
  · rw [if_neg hb]
    by_cases ha : name ∈ st.allow
    · rw [if_pos ha]; exact (h.2 name ha).symm
    · rw [if_neg ha]
      by_cases hm : matches_blocklist bl name = true
      · rw [if_pos hm, hm]
      · rw [if_neg hm]
        exact ((Bool.not_eq_true _).mp hm).symm

theorem step_faithful (bl : List String) (st : CacheState) (name : String)
    (h : cache_faithful bl st) : cache_faithful bl (is_blocked bl st name).2 := by
  rw [is_blocked_eq]
  by_cases hb : name ∈ st.block
  · rw [if_pos hb]; exact h
  · rw [if_neg hb]
    by_cases ha : name ∈ st.allow
    · rw [if_pos ha]; exact h
    · rw [if_neg ha]
      by_cases hm : matches_blocklist bl name = true
      · rw [if_pos hm]
        refine ⟨?_, h.2⟩
        intro n hn
        rcases (mem_insertS st.block name n).mp hn with rfl | hn'
        · exact hm
        · exact h.1 n hn'
      · rw [if_neg hm]
        refine ⟨h.1, ?_⟩
        intro n hn
        rcases (mem_insertS st.allow name n).mp hn with rfl | hn'
        · exact (Bool.not_eq_true _).mp hm
        · exact h.2 n hn'

theorem runCalls_faithful (bl names : List String) (st : CacheState)
    (h : cache_faithful bl st) : cache_faithful bl (runCalls bl names st) := by
  induction names generalizing st with
  | nil => exact h
  | cons n t ih => exact ih (is_blocked bl st n).2 (step_faithful bl st n h)

/-- C10: in every cache state reachable by `is_blocked` calls from the empty
cache, a name sits in the blocked cache only if some blocklist suffix
matches it per `does_end`, sits in the allowed cache only if none does, and
the verdict `is_blocked` returns for any name equals the pure blocklist
scan, whether or not the name was cached. -/
theorem C10_cache_transparent (bl names : List String) :
    (∀ n, n ∈ (runCalls bl names emptyCache).block →
      matches_blocklist bl n = true) ∧
    (∀ n, n ∈ (runCalls bl names emptyCache).allow →
      matches_blocklist bl n = false) ∧
    (∀ n, (is_blocked bl (runCalls bl names emptyCache) n).1 =
      matches_blocklist bl n) := by
  have h0 : cache_faithful bl emptyCache :=
    ⟨fun n hn => absurd hn (by rintro ⟨⟩), fun n hn => absurd hn (by rintro ⟨⟩)⟩
  have h := runCalls_faithful bl names emptyCache h0
  exact ⟨h.1, h.2, fun n => is_blocked_fst_faithful bl _ n h⟩

/-- Witness for C10 at a concrete input: after classifying
"www.example.com." once, it is in the blocked cache, and indeed some
blocklist suffix matches it. -/
theorem C10_witness :
    matches_blocklist ["example.com."] "www.example.com." = true :=
  (C10_cache_transparent ["example.com."] ["www.example.com."]).1
    "www.example.com." (by decide)

theorem empty_cache_faithful (bl : List String) : cache_faithful bl emptyCache :=
  ⟨fun n hn => absurd hn (by rintro ⟨⟩), fun n hn => absurd hn (by rintro ⟨⟩)⟩

/-- C1: counterexample. With blocklist suffix "example.com.", the code
classifies the exactly-matching name "example.com." as allowed:
`does_end` demands that the character immediately before the suffix be a
dot, and for an exact match there is no such character
(`chars().take(0).last()` is `None`), so `is_blocked` returns false.
The claim states this name must be classified blocked. -/
theorem C1_counterexample :
    (is_blocked ["example.com."] emptyCache "example.com.").1 = false := by decide

/-- C1 (amended): for every ASCII name, `does_end` holds exactly when the
name splits as a dot-terminated non-empty prefix followed by the blocklist
suffix — a suffix match on a label boundary with at least one preceding
label, so an exact match does NOT count; classification from the empty
cache returns blocked exactly when some blocklist suffix matches per this
check; with blocklist suffix "example.com.", "www.example.com." is blocked
while "example.com.", "evilexample.com." and "example.com.evil.org." are
allowed. -/
theorem C1_suffix_boundary :
    (∀ name it : String, (∀ c ∈ name.data, c.val < 128) →
      (does_end name it = true ↔ boundary_match name it)) ∧
    (∀ (bl : List String) (name : String),
      (is_blocked bl emptyCache name).1 = matches_blocklist bl name) ∧
    (is_blocked ["example.com."] emptyCache "www.example.com.").1 = true ∧
    (is_blocked ["example.com."] emptyCache "example.com.").1 = false ∧
    (is_blocked ["example.com."] emptyCache "evilexample.com.").1 = false ∧
    (is_blocked ["example.com."] emptyCache "example.com.evil.org.").1 = false :=
  ⟨does_end_iff_boundary,
   fun bl name => is_blocked_fst_faithful bl emptyCache name (empty_cache_faithful bl),
   by decide, by decide, by decide, by decide⟩

/-- Witness for C1 (amended) at a concrete input: "www.example.com." decomposes
at a label boundary before "example.com.", so `does_end` accepts it. -/
theorem C1_witness :
    does_end "www.example.com." "example.com." = true :=
  (C1_suffix_boundary.1 "www.example.com." "example.com." (by decide)).mpr
    ⟨"www.".data, by decide, by decide⟩

/-!
The protocol layer (hickory types as used by src/dns.rs).

Records are opaque to the handler: it only copies them between messages, so
the record type is a type parameter `Rec`.  Fallible effects — extracting
the request info, the upstream round trip, the transport send — are
modelled with `Except Unit` (the `anyhow` error content is irrelevant: the
handler only logs it).  The names `is_blocked` consults and the upstream
receives are the same query name, modelled once as a `String`
(`Name::to_utf8` in the source; `LowerName::into_name` cannot fail on a
name that is already a `Name`).
-/

inductive MessageType | Query | Response
deriving DecidableEq, Repr

inductive OpCode | Query | Status | Notify | Update
deriving DecidableEq, Repr

inductive ResponseCode
  | NoError | FormErr | ServFail | NXDomain | NotImp | Refused | BADVERS
deriving DecidableEq, Repr

/-- The 12-bit wire value of a response code (hickory `ResponseCode`). -/
def ResponseCode.toNat : ResponseCode → Nat
  | .NoError => 0
  | .FormErr => 1
  | .ServFail => 2
  | .NXDomain => 3
  | .NotImp => 4
  | .Refused => 5
  | .BADVERS => 16

/-- hickory `ResponseCode::high`: the upper 8 bits of the 12-bit code,
i.e. the EDNS extended-rcode byte. -/
def ResponseCode.high (rc : ResponseCode) : Nat :=
  (rc.toNat >>> 4) &&& 0xFF

/-- The EDNS state the handler reads and writes: DNSSEC-OK flag, max
payload (u16), version (u8), extended-rcode high byte (u8). -/
structure Edns where
  dnssec_ok : Bool
  max_payload : Nat
  version : Nat
  rcode_high : Nat
deriving DecidableEq, Repr

structure Header where
  id : Nat
  message_type : MessageType
  op_code : OpCode
  recursion_desired : Bool
  recursion_available : Bool
  response_code : ResponseCode
deriving DecidableEq, Repr

/-- hickory `Header::new(id, message_type, op_code)`: all flags cleared,
response code NoError. -/
def mkHeader (id : Nat) (mt : MessageType) (oc : OpCode) : Header :=
  ⟨id, mt, oc, false, false, .NoError⟩

/-- hickory `Header::response_from_request`: same id and op-code, message
type Response, recursion-desired copied, everything else cleared. -/
def Header.response_from_request (h : Header) : Header :=
  ⟨h.id, .Response, h.op_code, h.recursion_desired, false, .NoError⟩

inductive DNSClass | IN | CH | HS | ANY
deriving DecidableEq, Repr

inductive RecordType | A | AAAA | MX | NS | TXT
deriving DecidableEq, Repr

/-- The (name, class, type) triple extracted from the request's query
section (`request.request_info()?.query`). -/
structure QueryInfo where
  name : String
  query_class : DNSClass
  query_type : RecordType
deriving DecidableEq, Repr

/-- An inbound request as the handler reads it: header (carrying message
type and op-code), optional EDNS section, and the fallible query info. -/
structure Request where
  header : Header
  edns : Option Edns
  request_info : Except Unit QueryInfo

/-- An upstream answer (`DnsResponse`): the fields the handler copies. -/
structure DnsResponse (Rec : Type) where
  recursion_available : Bool
  response_code : ResponseCode
  answers : List Rec
  authorities : List Rec
  additionals : List Rec
deriving DecidableEq, Repr

/-- An outbound message (`MessageResponse`): header, the four record
sections of `MessageResponseBuilder::build`, and the optional EDNS. -/
structure DnsMessage (Rec : Type) where
  header : Header
  answers : List Rec
  authorities : List Rec
  soa : List Rec
  additionals : List Rec
  edns : Option Edns
deriving DecidableEq, Repr

/-- hickory `MessageResponseBuilder::error_msg`: a response header derived
from the request header with the given response code, and no records. -/
def error_msg {Rec : Type} (request_header : Header) (rc : ResponseCode) :
    DnsMessage Rec :=
  { header := { Header.response_from_request request_header with response_code := rc },
    answers := [], authorities := [], soa := [], additionals := [], edns := none }

/-- The handler's environment: the immutable blocklist, the upstream
resolver (`Client::query`, fallible), and the transport send, modelled by a
predicate saying which outbound messages the transport accepts. -/
structure HandlerEnv (Rec : Type) where
  blocklist : List String
  upstream : String → DNSClass → RecordType → Except Unit (DnsResponse Rec)
  sendOk : DnsMessage Rec → Bool

/-- `DnsHandler::OLD_VERSION` (src/dns.rs line 22). -/
def OLD_VERSION : Nat := 0

/-- The response EDNS constructed in `try_handle_request` (src/dns.rs lines
154-157): DNSSEC-OK set, max-payload the larger of the client's request and
512, version pinned to the supported version. -/
def mk_resp_edns (req_edns : Edns) : Edns :=
  { dnssec_ok := true, max_payload := max req_edns.max_payload 512,
    version := OLD_VERSION, rcode_high := 0 }

/-- `DnsHandler::send_response` (src/dns.rs lines 125-142): set the EDNS
section if one was negotiated, then hand the message to the transport. -/
def send_response {Rec : Type} (sendOk : DnsMessage Rec → Bool)
    (response_edns : Option Edns) (msg : DnsMessage Rec) :
    Except Unit (DnsMessage Rec) :=
  let msg' := match response_edns with
    | some e => { msg with edns := some e }
    | none => msg
  if sendOk msg' then .ok msg' else .error ()

/-- The forwarded response built at src/dns.rs lines 96-109: the request's
response header with the upstream's recursion-available flag and response
code, and the upstream's answer/authority/additional sections copied
verbatim (the soa slot is passed `&[]`). -/
def forwarded_msg {Rec : Type} (request : Request) (resp : DnsResponse Rec) :
    DnsMessage Rec :=
  { header := { Header.response_from_request request.header with
      recursion_available := resp.recursion_available,
      response_code := resp.response_code },
    answers := resp.answers, authorities := resp.authorities,
    soa := [], additionals := resp.additionals, edns := none }

/-- `DnsHandler::handle_query` (src/dns.rs lines 72-123).  Returns the
transport outcome carrying the sent message, the cache state after
classification, and the number of upstream calls made. -/
def handle_query {Rec : Type} (env : HandlerEnv Rec) (st : CacheState)
    (response_edns : Option Edns) (request : Request) :
    Except Unit (DnsMessage Rec) × CacheState × Nat :=
  match request.request_info with
  | .error _ => (.error (), st, 0)
  | .ok info =>
    match is_blocked env.blocklist st info.name with
    | (true, st') =>
      (send_response env.sendOk response_edns
        (error_msg request.header .NXDomain), st', 0)
    | (false, st') =>
      match env.upstream info.name info.query_class info.query_type with
      | .error _ => (.error (), st', 1)
      | .ok resp =>
        (send_response env.sendOk response_edns (forwarded_msg request resp),
         st', 1)

/-- The message-type/op-code dispatch at src/dns.rs lines 173-187
(`MessageType::Query if op_code == Query`): only Query/Query proceeds to
`handle_query`; anything else is answered NotImp with the
already-negotiated EDNS state. -/
def handle_by_type {Rec : Type} (env : HandlerEnv Rec) (st : CacheState)
    (response_edns : Option Edns) (request : Request) :
    Except Unit (DnsMessage Rec) × CacheState × Nat :=
  if request.header.message_type = .Query ∧ request.header.op_code = .Query then
    handle_query env st response_edns request
  else
    (send_response env.sendOk response_edns
      (error_msg request.header .NotImp), st, 0)

/-- The no-records BADVERS message built at src/dns.rs lines 159-166: the
response header with code BADVERS, and the response EDNS with the high byte
of BADVERS echoed into the extended-rcode field. -/
def badvers_msg {Rec : Type} (request : Request) (req_edns : Edns) :
    DnsMessage Rec :=
  { header := { Header.response_from_request request.header with
      response_code := .BADVERS },
    answers := [], authorities := [], soa := [], additionals := [],
    edns := some { mk_resp_edns req_edns with
      rcode_high := ResponseCode.high .BADVERS } }

/-- `DnsHandler::try_handle_request` (src/dns.rs lines 143-188). -/
def try_handle_request {Rec : Type} (env : HandlerEnv Rec) (st : CacheState)
    (request : Request) : Except Unit (DnsMessage Rec) × CacheState × Nat :=
  match request.request_info with
  | .error _ => (.error (), st, 0)
  | .ok _ =>
    match request.edns with
    | some req_edns =>
      if req_edns.version > OLD_VERSION then
        (if env.sendOk (badvers_msg request req_edns) then
          .ok (badvers_msg request req_edns)
         else .error (), st, 0)
      else handle_by_type env st (some (mk_resp_edns req_edns)) request
    | none => handle_by_type env st none request

/-- The generic SERVFAIL fallback header built at src/dns.rs lines 202-204:
`Header::new(0, Query, Query)` with response code ServFail. -/
def servfail_header : Header :=
  { mkHeader 0 .Query .Query with response_code := .ServFail }

/-- `RequestHandler::handle_request` for `DnsHandler` (src/dns.rs lines
193-206): run `try_handle_request` and turn any error into the generic
SERVFAIL response info.  The `ResponseInfo` is the header of the sent
message. -/
def handle_request {Rec : Type} (env : HandlerEnv Rec) (st : CacheState)
    (request : Request) : Header × CacheState × Nat :=
  match try_handle_request env st request with
  | (.ok msg, st', n) => (msg.header, st', n)
  | (.error _, st', n) => (servfail_header, st', n)

/-- The EDNS state `try_handle_request` computes for a request (when the
version check passes): none when the request carries no EDNS. -/
def negotiated_edns (request : Request) : Option Edns :=
  request.edns.map mk_resp_edns

/-- C2: whenever any fallible step of `try_handle_request` fails — malformed
request info, upstream forwarding failure, or transport send failure —
`handle_request` answers with the generic empty ServFail header instead of
propagating the error; the code is ServFail, never BADVERS or NXDomain, and
`handle_request` is total, so every request produces some response. -/
theorem C2_error_fallback {Rec : Type} (env : HandlerEnv Rec) (st : CacheState)
    (request : Request)
    (h : (try_handle_request env st request).1 = .error ()) :
    (handle_request env st request).1 = servfail_header ∧
    servfail_header = { mkHeader 0 .Query .Query with response_code := .ServFail } ∧
    (handle_request env st request).1.response_code = .ServFail ∧
    (handle_request env st request).1.response_code ≠ .BADVERS ∧
    (handle_request env st request).1.response_code ≠ .NXDomain := by
  have hmain : (handle_request env st request).1 = servfail_header := by
    unfold handle_request
    rcases hres : try_handle_request env st request with ⟨r, st2, n⟩
    rw [hres] at h
    change r = .error () at h
    subst h
    rfl
  refine ⟨hmain, rfl, ?_, ?_, ?_⟩ <;> rw [hmain] <;> decide

/-- Witness for C2 at a concrete input: a well-formed allowed query whose
upstream forwarding fails is answered with the generic ServFail header. -/
theorem C2_witness :
    (try_handle_request
      (⟨[], fun _ _ _ => .error (), fun _ => true⟩ : HandlerEnv Nat)
      emptyCache
      ⟨mkHeader 7 .Query .Query, none, .ok ⟨"example.org.", .IN, .A⟩⟩).1 =
        .error () ∧
    (handle_request
      (⟨[], fun _ _ _ => .error (), fun _ => true⟩ : HandlerEnv Nat)
      emptyCache
      ⟨mkHeader 7 .Query .Query, none, .ok ⟨"example.org.", .IN, .A⟩⟩).1 =
        servfail_header :=
  ⟨rfl, (C2_error_fallback
    (⟨[], fun _ _ _ => .error (), fun _ => true⟩ : HandlerEnv Nat)
    emptyCache
    ⟨mkHeader 7 .Query .Query, none, .ok ⟨"example.org.", .IN, .A⟩⟩ rfl).1⟩

/-- C3: a request whose EDNS version exceeds the supported version 0 is
answered immediately — before the message-type dispatch, the classifier and
the forwarder — with a no-records message whose response code is BADVERS
and whose EDNS echoes the high byte of BADVERS in the extended-rcode field;
the cache is untouched, no upstream call is made, and the outcome is the
same for every blocklist and upstream (a success path when the transport
accepts the message). -/
theorem C3_edns_version_downgrade {Rec : Type} (env : HandlerEnv Rec)
    (st : CacheState) (request : Request) (info : QueryInfo) (req_edns : Edns)
    (hinfo : request.request_info = .ok info)
    (hedns : request.edns = some req_edns)
    (hver : req_edns.version > OLD_VERSION) :
    try_handle_request env st request =
      (if env.sendOk (badvers_msg request req_edns) then
        .ok (badvers_msg request req_edns : DnsMessage Rec)
       else .error (), st, 0) ∧
    (badvers_msg request req_edns : DnsMessage Rec).header.response_code =
      .BADVERS ∧
    (badvers_msg request req_edns : DnsMessage Rec).answers = [] ∧
    (badvers_msg request req_edns : DnsMessage Rec).authorities = [] ∧
    (badvers_msg request req_edns : DnsMessage Rec).soa = [] ∧
    (badvers_msg request req_edns : DnsMessage Rec).additionals = [] ∧
    (badvers_msg request req_edns : DnsMessage Rec).edns =
      some { mk_resp_edns req_edns with
        rcode_high := ResponseCode.high .BADVERS } ∧
    ResponseCode.high .BADVERS = 1 ∧
    (∀ (bl : List String) (up : String → DNSClass → RecordType →
        Except Unit (DnsResponse Rec)),
      try_handle_request ⟨bl, up, env.sendOk⟩ st request =
        try_handle_request env st request) := by
  have hmain : ∀ (env' : HandlerEnv Rec), env'.sendOk = env.sendOk →
      try_handle_request env' st request =
        (if env.sendOk (badvers_msg request req_edns) then
          .ok (badvers_msg request req_edns : DnsMessage Rec)
         else .error (), st, 0) := by
    intro env' hsend
    simp only [try_handle_request, hinfo, hedns, if_pos hver, hsend]
  refine ⟨hmain env rfl, rfl, rfl, rfl, rfl, rfl, rfl, by decide, ?_⟩
  intro bl up
  rw [hmain ⟨bl, up, env.sendOk⟩ rfl, hmain env rfl]

/-- Witness for C3 at a concrete input: EDNS version 1 with requested
payload 1232 yields the no-records BADVERS message, an unchanged cache and
no upstream call. -/
theorem C3_witness :
    try_handle_request
      (⟨["example.com."], fun _ _ _ => .error (), fun _ => true⟩ :
        HandlerEnv Nat)
      emptyCache
      ⟨mkHeader 1 .Query .Query, some ⟨false, 1232, 1, 0⟩,
        .ok ⟨"example.org.", .IN, .A⟩⟩ =
    (.ok (badvers_msg
        ⟨mkHeader 1 .Query .Query, some ⟨false, 1232, 1, 0⟩,
          .ok ⟨"example.org.", .IN, .A⟩⟩ ⟨false, 1232, 1, 0⟩),
      emptyCache, 0) :=
  ((C3_edns_version_downgrade _ emptyCache _ ⟨"example.org.", .IN, .A⟩
    ⟨false, 1232, 1, 0⟩ rfl rfl (by decide)).1).trans rfl

/-- A successful `send_response` carries the negotiated EDNS when there is
one, and the built message's (absent) EDNS otherwise. -/
theorem send_response_ok_edns {Rec : Type} (sendOk : DnsMessage Rec → Bool)
    (re : Option Edns) (msg0 msg : DnsMessage Rec) (h0 : msg0.edns = none)
    (h : send_response sendOk re msg0 = .ok msg) : msg.edns = re := by
  cases re with
  | none =>
    simp only [send_response] at h
    split at h
    · injection h with h
      rw [← h]
      exact h0
    · exact Except.noConfusion h
  | some e =>
    simp only [send_response] at h
    split at h
    · injection h with h
      rw [← h]
    · exact Except.noConfusion h

theorem handle_query_ok_edns {Rec : Type} (env : HandlerEnv Rec)
    (st : CacheState) (re : Option Edns) (request : Request)
    (msg : DnsMessage Rec) (st' : CacheState) (n : Nat)
    (h : handle_query env st re request = (.ok msg, st', n)) : msg.edns = re := by
  unfold handle_query at h
  split at h
  · injection h with h1 h2
    exact Except.noConfusion h1
  · split at h
    · injection h with h1 h2
      exact send_response_ok_edns env.sendOk re _ msg rfl h1
    · split at h
      · injection h with h1 h2
        exact Except.noConfusion h1
      · injection h with h1 h2
        exact send_response_ok_edns env.sendOk re _ msg rfl h1

theorem handle_by_type_ok_edns {Rec : Type} (env : HandlerEnv Rec)
    (st : CacheState) (re : Option Edns) (request : Request)
    (msg : DnsMessage Rec) (st' : CacheState) (n : Nat)
    (h : handle_by_type env st re request = (.ok msg, st', n)) : msg.edns = re := by
  unfold handle_by_type at h
  split at h
  · exact handle_query_ok_edns env st re request msg st' n h
  · injection h with h1 h2
    exact send_response_ok_edns env.sendOk re _ msg rfl h1

/-- C4: every successfully sent response to a request carrying EDNS carries
a negotiated EDNS whose max-payload is the larger of the client's requested
payload and 512, hence never below 512. -/
theorem C4_payload_floor {Rec : Type} (env : HandlerEnv Rec) (st : CacheState)
    (request : Request) (req_edns : Edns) (msg : DnsMessage Rec)
    (st' : CacheState) (n : Nat)
    (hedns : request.edns = some req_edns)
    (hok : try_handle_request env st request = (.ok msg, st', n)) :
    ∃ r, msg.edns = some r ∧
      r.max_payload = max req_edns.max_payload 512 ∧
      512 ≤ r.max_payload := by
  unfold try_handle_request at hok
  split at hok
  · injection hok with h1 h2
    exact Except.noConfusion h1
  · simp only [hedns] at hok
    by_cases hver : req_edns.version > OLD_VERSION
    · rw [if_pos hver] at hok
      split at hok
      · injection hok with h1 h2
        injection h1 with h1
        exact ⟨{ mk_resp_edns req_edns with
            rcode_high := ResponseCode.high .BADVERS },
          by rw [← h1]; rfl, rfl, Nat.le_max_right _ _⟩
      · injection hok with h1 h2
        exact Except.noConfusion h1
    · rw [if_neg hver] at hok
      exact ⟨mk_resp_edns req_edns,
        handle_by_type_ok_edns env st (some (mk_resp_edns req_edns)) request
          msg st' n hok,
        rfl, Nat.le_max_right _ _⟩

/-- Witness for C4 at concrete inputs: a requested max-payload of 256 is
negotiated up to 512, and a requested 4096 stays 4096 (blocked query
"ads.example.com.", blocklist ["example.com."]). -/
theorem C4_witness :
    (∃ r, (⟨⟨2, .Response, .Query, false, false, .NXDomain⟩, [], [], [], [],
        some ⟨true, 512, 0, 0⟩⟩ : DnsMessage Nat).edns = some r ∧
      r.max_payload = max 256 512 ∧ 512 ≤ r.max_payload) ∧
    (∃ r, (⟨⟨3, .Response, .Query, false, false, .NXDomain⟩, [], [], [], [],
        some ⟨true, 4096, 0, 0⟩⟩ : DnsMessage Nat).edns = some r ∧
      r.max_payload = max 4096 512 ∧ 512 ≤ r.max_payload) :=
  ⟨C4_payload_floor
    (⟨["example.com."], fun _ _ _ => .error (), fun _ => true⟩ : HandlerEnv Nat)
    emptyCache
    ⟨mkHeader 2 .Query .Query, some ⟨false, 256, 0, 0⟩,
      .ok ⟨"ads.example.com.", .IN, .A⟩⟩
    ⟨false, 256, 0, 0⟩
    ⟨⟨2, .Response, .Query, false, false, .NXDomain⟩, [], [], [], [],
      some ⟨true, 512, 0, 0⟩⟩
    ⟨[], ["ads.example.com."]⟩ 0 rfl rfl,
   C4_payload_floor
    (⟨["example.com."], fun _ _ _ => .error (), fun _ => true⟩ : HandlerEnv Nat)
    emptyCache
    ⟨mkHeader 3 .Query .Query, some ⟨false, 4096, 0, 0⟩,
      .ok ⟨"ads.example.com.", .IN, .A⟩⟩
    ⟨false, 4096, 0, 0⟩
    ⟨⟨3, .Response, .Query, false, false, .NXDomain⟩, [], [], [], [],
      some ⟨true, 4096, 0, 0⟩⟩
    ⟨[], ["ads.example.com."]⟩ 0 rfl rfl⟩

/-- C5: a well-formed Query/Query request whose name the classifier reports
blocked is answered with the NXDomain error message — empty
answer/authority/additional sections, negotiated EDNS attached if present —
the cache moves to the classifier's state, and the upstream forwarder is
never invoked (zero upstream calls, and the outcome is the same for every
upstream). -/
theorem C5_blocked_path {Rec : Type} (env : HandlerEnv Rec) (st : CacheState)
    (request : Request) (info : QueryInfo) (st' : CacheState)
    (hinfo : request.request_info = .ok info)
    (hmt : request.header.message_type = .Query)
    (hoc : request.header.op_code = .Query)
    (hver : ∀ e, request.edns = some e → e.version = 0)
    (hblocked : is_blocked env.blocklist st info.name = (true, st')) :
    try_handle_request env st request =
      (send_response env.sendOk (negotiated_edns request)
        (error_msg request.header .NXDomain), st', 0) ∧
    (error_msg request.header .NXDomain : DnsMessage Rec).header.response_code =
      .NXDomain ∧
    (error_msg request.header .NXDomain : DnsMessage Rec).answers = [] ∧
    (error_msg request.header .NXDomain : DnsMessage Rec).authorities = [] ∧
    (error_msg request.header .NXDomain : DnsMessage Rec).additionals = [] ∧
    (∀ up : String → DNSClass → RecordType → Except Unit (DnsResponse Rec),
      try_handle_request ⟨env.blocklist, up, env.sendOk⟩ st request =
        try_handle_request env st request) := by
  have hv : ∀ e, request.edns = some e → ¬(e.version > OLD_VERSION) := by
    intro e he
    rw [hver e he]
    exact Nat.lt_irrefl 0
  have hmain : ∀ (env' : HandlerEnv Rec), env'.blocklist = env.blocklist →
      env'.sendOk = env.sendOk →
      try_handle_request env' st request =
        (send_response env.sendOk (negotiated_edns request)
          (error_msg request.header .NXDomain), st', 0) := by
    intro env' hbl hsend
    cases hE : request.edns with
    | some e =>
      simp [try_handle_request, hinfo, hE, hv e hE, handle_by_type, hmt, hoc,
        handle_query, hbl, hblocked, hsend, negotiated_edns]
    | none =>
      simp [try_handle_request, hinfo, hE, handle_by_type, hmt, hoc,
        handle_query, hbl, hblocked, hsend, negotiated_edns]
  refine ⟨hmain env rfl rfl, rfl, rfl, rfl, rfl, ?_⟩
  intro up
  rw [hmain ⟨env.blocklist, up, env.sendOk⟩ rfl rfl, hmain env rfl rfl]

/-- Witness for C5 at a concrete input: the blocked query
"ads.example.com." yields the NXDomain no-records response, the name enters
the blocked cache, and zero upstream calls are made. -/
theorem C5_witness :
    try_handle_request
      (⟨["example.com."], fun _ _ _ => .error (), fun _ => true⟩ :
        HandlerEnv Nat)
      emptyCache
      ⟨mkHeader 4 .Query .Query, none, .ok ⟨"ads.example.com.", .IN, .A⟩⟩ =
    (.ok ⟨⟨4, .Response, .Query, false, false, .NXDomain⟩, [], [], [], [], none⟩,
      ⟨[], ["ads.example.com."]⟩, 0) :=
  ((C5_blocked_path
    (⟨["example.com."], fun _ _ _ => .error (), fun _ => true⟩ : HandlerEnv Nat)
    emptyCache
    ⟨mkHeader 4 .Query .Query, none, .ok ⟨"ads.example.com.", .IN, .A⟩⟩
    ⟨"ads.example.com.", .IN, .A⟩ ⟨[], ["ads.example.com."]⟩
    rfl rfl rfl (fun _ he => nomatch he) rfl).1).trans rfl

/-- C6: a well-formed Query/Query request whose name the classifier reports
allowed invokes the upstream forwarder exactly once, and on upstream
success the outbound message echoes the upstream's recursion-available flag
and response code and copies its answer/authority/additional sections
verbatim, with the negotiated EDNS attached if present. -/
theorem C6_forwarded_path {Rec : Type} (env : HandlerEnv Rec) (st : CacheState)
    (request : Request) (info : QueryInfo) (st' : CacheState)
    (resp : DnsResponse Rec)
    (hinfo : request.request_info = .ok info)
    (hmt : request.header.message_type = .Query)
    (hoc : request.header.op_code = .Query)
    (hver : ∀ e, request.edns = some e → e.version = 0)
    (hallowed : is_blocked env.blocklist st info.name = (false, st'))
    (hup : env.upstream info.name info.query_class info.query_type = .ok resp) :
    try_handle_request env st request =
      (send_response env.sendOk (negotiated_edns request)
        (forwarded_msg request resp), st', 1) ∧
    (forwarded_msg request resp).header.recursion_available =
      resp.recursion_available ∧
    (forwarded_msg request resp).header.response_code = resp.response_code ∧
    (forwarded_msg request resp).answers = resp.answers ∧
    (forwarded_msg request resp).authorities = resp.authorities ∧
    (forwarded_msg request resp).additionals = resp.additionals ∧
    (forwarded_msg request resp).soa = [] := by
  have hv : ∀ e, request.edns = some e → ¬(e.version > OLD_VERSION) := by
    intro e he
    rw [hver e he]
    exact Nat.lt_irrefl 0
  refine ⟨?_, rfl, rfl, rfl, rfl, rfl, rfl⟩
  cases hE : request.edns with
  | some e =>
    simp [try_handle_request, hinfo, hE, hv e hE, handle_by_type, hmt, hoc,
      handle_query, hallowed, hup, negotiated_edns]
  | none =>
    simp [try_handle_request, hinfo, hE, handle_by_type, hmt, hoc,
      handle_query, hallowed, hup, negotiated_edns]

/-- Witness for C6 at a concrete input: the allowed query "example.org."
is forwarded; the stub upstream's single answer record and NoError code and
recursion-available flag appear verbatim in the outbound message, after one
upstream call. -/
theorem C6_witness :
    try_handle_request
      (⟨["example.com."], fun _ _ _ => .ok ⟨true, .NoError, [42], [], []⟩,
        fun _ => true⟩ : HandlerEnv Nat)
      emptyCache
      ⟨mkHeader 5 .Query .Query, none, .ok ⟨"example.org.", .IN, .A⟩⟩ =
    (.ok ⟨⟨5, .Response, .Query, false, true, .NoError⟩, [42], [], [], [], none⟩,
      ⟨["example.org."], []⟩, 1) :=
  ((C6_forwarded_path
    (⟨["example.com."], fun _ _ _ => .ok ⟨true, .NoError, [42], [], []⟩,
      fun _ => true⟩ : HandlerEnv Nat)
    emptyCache
    ⟨mkHeader 5 .Query .Query, none, .ok ⟨"example.org.", .IN, .A⟩⟩
    ⟨"example.org.", .IN, .A⟩ ⟨["example.org."], []⟩
    ⟨true, .NoError, [42], [], []⟩
    rfl rfl rfl (fun _ he => nomatch he) rfl rfl).1).trans rfl

/-- C9: a request that is not message-type Query with op-code Query — once
its EDNS version check has passed — is answered NotImp with the negotiated
EDNS state reused; the cache is untouched, no upstream call is made, and
classification and forwarding are never reached (the outcome is the same
for every blocklist and upstream). -/
theorem C9_not_implemented {Rec : Type} (env : HandlerEnv Rec) (st : CacheState)
    (request : Request) (info : QueryInfo)
    (hinfo : request.request_info = .ok info)
    (hver : ∀ e, request.edns = some e → e.version = 0)
    (hne : ¬(request.header.message_type = .Query ∧
             request.header.op_code = .Query)) :
    try_handle_request env st request =
      (send_response env.sendOk (negotiated_edns request)
        (error_msg request.header .NotImp), st, 0) ∧
    (error_msg request.header .NotImp : DnsMessage Rec).header.response_code =
      .NotImp ∧
    (∀ (bl : List String)
       (up : String → DNSClass → RecordType → Except Unit (DnsResponse Rec)),
      try_handle_request ⟨bl, up, env.sendOk⟩ st request =
        try_handle_request env st request) := by
  have hv : ∀ e, request.edns = some e → ¬(e.version > OLD_VERSION) := by
    intro e he
    rw [hver e he]
    exact Nat.lt_irrefl 0
  have hmain : ∀ (env' : HandlerEnv Rec), env'.sendOk = env.sendOk →
      try_handle_request env' st request =
        (send_response env.sendOk (negotiated_edns request)
          (error_msg request.header .NotImp), st, 0) := by
    intro env' hsend
    cases hE : request.edns with
    | some e =>
      simp [try_handle_request, hinfo, hE, hv e hE, handle_by_type,
        if_neg hne, hsend, negotiated_edns]
    | none =>
      simp [try_handle_request, hinfo, hE, handle_by_type, if_neg hne, hsend,
        negotiated_edns]
  refine ⟨hmain env rfl, rfl, ?_⟩
  intro bl up
  rw [hmain ⟨bl, up, env.sendOk⟩ rfl, hmain env rfl]

/-- Witness for C9 at a concrete input: a request with op-code Status is
answered NotImp with an unchanged cache and no upstream call. -/
theorem C9_witness :
    try_handle_request
      (⟨[], fun _ _ _ => .error (), fun _ => true⟩ : HandlerEnv Nat)
      emptyCache
      ⟨mkHeader 6 .Query .Status, none, .ok ⟨"example.org.", .IN, .A⟩⟩ =
    (.ok ⟨⟨6, .Response, .Status, false, false, .NotImp⟩, [], [], [], [], none⟩,
      emptyCache, 0) :=
  ((C9_not_implemented
    (⟨[], fun _ _ _ => .error (), fun _ => true⟩ : HandlerEnv Nat)
    emptyCache
    ⟨mkHeader 6 .Query .Status, none, .ok ⟨"example.org.", .IN, .A⟩⟩
    ⟨"example.org.", .IN, .A⟩
    rfl (fun _ he => nomatch he) (by decide)).1).trans rfl

end Ndns
